import Mathlib

/-!
Verification of the `cloudstorage` client and its stub dispatcher.

The definitions below are a shallow embedding of
`src/cloudstorage/stub_dispatcher.py` and `src/cloudstorage/cloudstorage_api.py`
(Python 2).  Python strings are `String`/`List Char`, byte payloads are
`List Nat`, Python `long` values are `Int`/`Nat`, raised exceptions are
modelled with `Except PyErr`.  Functions of the repository that live in
files missing from src/ (`cloudstorage_stub.py`) are modelled from the
spec and marked as such in their doc comments.
-/

namespace GcsClient

/-- Python exceptions raised by the embedded code. -/
inductive PyErr where
  | valueError (msg : String)
  | attributeError
  | typeError
  | keyError
deriving DecidableEq, Repr

instance {ε α : Type} [DecidableEq ε] [DecidableEq α] : DecidableEq (Except ε α) :=
  fun x y =>
    match x, y with
    | Except.ok a, Except.ok b =>
      if h : a = b then isTrue (by rw [h])
      else isFalse (fun he => h (Except.ok.inj he))
    | Except.error a, Except.error b =>
      if h : a = b then isTrue (by rw [h])
      else isFalse (fun he => h (Except.error.inj he))
    | Except.ok _, Except.error _ => isFalse (fun he => Except.noConfusion he)
    | Except.error _, Except.ok _ => isFalse (fun he => Except.noConfusion he)

/-- A response header value: `_handle_head` stores the int `st_size` under
`content-length` and strings elsewhere, and `_handle_get` reads the int back. -/
inductive HVal where
  | nat (n : Nat)
  | str (s : String)
deriving DecidableEq, Repr

/-- `_FakeUrlFetchResult(status, headers, content)`. -/
structure FakeResult where
  status : Nat
  headers : List (String × HVal)
  content : List Nat
deriving DecidableEq, Repr

/-- Lower-casing of a string, as `str.lower()` on the ASCII header names used here. -/
def lowerStr (s : String) : String := String.mk (s.data.map Char.toLower)

/-- `_Header.__init__`: first header whose key lower-cases to the wanted name
(`_preprocess` has already lower-cased the keys, `_Header` lowers both sides). -/
def headerLookup (name : String) (headers : List (String × String)) : Option String :=
  (headers.find? (fun kv => lowerStr kv.1 == lowerStr name)).map (fun kv => kv.2)

/-- Python truthiness of `self.value` (`None` and `""` are falsy). -/
def pyTruthyStr : Option String → Bool
  | none => false
  | some s => s != ""

/-- Greedy `[0-9]+` span: the matched digits and the rest of the input. -/
def takeDigits : List Char → List Char × List Char
  | [] => ([], [])
  | c :: cs =>
    if c.isDigit then ((c :: (takeDigits cs).1), (takeDigits cs).2)
    else ([], c :: cs)

/-- Numeric value of a digit string, as Python `long` on a `[0-9]+` match. -/
def digitsVal (l : List Char) : Nat := l.foldl (fun a c => a * 10 + (c.toNat - 48)) 0

/-- Python re's `$` anchor (no MULTILINE): it matches at the very end of the
string or just before a single trailing newline. -/
def dollarEnd (l : List Char) : Bool := l == [] || l == ['\n']

/-- Tail of `_ContentRange.RE_PATTERN` after the literal `bytes ` prefix:
`([0-9]+)-([0-9]+)/([0-9]+|\x2a)$`.  Returns `(start, end, total?)`,
`total? = none` for `*`.  The final `$` is `dollarEnd`, so one trailing
newline after the last group is accepted, as Python's `re` does. -/
def parseCRTail (l : List Char) : Option (Nat × Nat × Option Nat) :=
  match (takeDigits l).2 with
  | '-' :: r2 =>
    match (takeDigits r2).2 with
    | '/' :: r4 =>
      if (takeDigits l).1 = [] ∨ (takeDigits r2).1 = [] then none
      else if r4 = ['*'] ∨ r4 = ['*', '\n'] then
        some (digitsVal (takeDigits l).1, digitsVal (takeDigits r2).1, none)
      else if (takeDigits r4).1 = [] ∨ ¬ dollarEnd (takeDigits r4).2 then none
      else
        some (digitsVal (takeDigits l).1, digitsVal (takeDigits r2).1,
          some (digitsVal (takeDigits r4).1))
    | _ => none
  | _ => none

/-- `_ContentRange.RE_PATTERN.match`: `^bytes ([0-9]+)-([0-9]+)/([0-9]+|\x2a)$`. -/
def parseCR : List Char → Option (Nat × Nat × Option Nat)
  | 'b' :: 'y' :: 't' :: 'e' :: 's' :: ' ' :: rest => parseCRTail rest
  | _ => none

/-- Content-range header value parser of `_ContentRange`. -/
def parseContentRange (s : String) : Option (Nat × Nat × Option Nat) := parseCR s.data

/-- The grammar `bytes <digits>-<digits>/<digits-or-star>` that
`_ContentRange.RE_PATTERN` is meant to accept, stated from the spec's words. -/
def CRGrammar (s : String) : Prop :=
  ∃ d1 d2 t : List Char,
    d1 ≠ [] ∧ (∀ c ∈ d1, c.isDigit = true) ∧
    d2 ≠ [] ∧ (∀ c ∈ d2, c.isDigit = true) ∧
    (t = ['*'] ∨ (t ≠ [] ∧ ∀ c ∈ t, c.isDigit = true)) ∧
    s.data = 'b' :: 'y' :: 't' :: 'e' :: 's' :: ' ' :: (d1 ++ '-' :: d2 ++ '/' :: t)

/-- The set the anchored pattern actually accepts: the grammar
`bytes <digits>-<digits>/<digits-or-star>` up to one trailing newline,
because `$` also matches just before a final newline. -/
def CRGrammarNL (s : String) : Prop :=
  CRGrammar s ∨ ∃ s' : String, CRGrammar s' ∧ s.data = s'.data ++ ['\n']

/-- The attributes `_ContentRange.__init__` sets when the header value is truthy
and matches the pattern: `start`, `end`, `finished = (group(3) != '*')`. -/
structure CRAttrs where
  start : Nat
  endOff : Nat
  finished : Bool
deriving DecidableEq, Repr

/-- The `_ContentRange` object: `value` is the raw header (or `None`), and the
numeric attributes exist only when the value was truthy and parsed (a falsy
value leaves `start`/`end`/`finished` unset, hence `attrs = none`). -/
structure CRObj where
  value : Option String
  attrs : Option CRAttrs
deriving DecidableEq, Repr

/-- `_ContentRange(headers)`: raises `ValueError` on a truthy value that does
not match the pattern. -/
def mkContentRange (headers : List (String × String)) : Except PyErr CRObj :=
  match headerLookup "Content-Range" headers with
  | none => Except.ok ⟨none, none⟩
  | some s =>
    if s = "" then Except.ok ⟨some s, none⟩
    else
      match parseContentRange s with
      | none => Except.error (PyErr.valueError ("Invalid content-range header " ++ s))
      | some (a, b, t) => Except.ok ⟨some s, some ⟨a, b, t.isSome⟩⟩

/-- One call `_handle_put` makes on the storage stub. -/
inductive PutCall where
  | continueCreation (payload : List Nat) (start endOff : Nat) (finalized : Bool)
  | headObject
deriving DecidableEq, Repr

/-- Outcome of `_handle_put`: the stub calls it issued (in order) and either the
`_FakeUrlFetchResult` or the exception raised. -/
abbrev PutOutcome := List PutCall × Except PyErr FakeResult

/-- The final branch of `_handle_put`: `put_continue_creation(..., True)` then
`head_object(filename)` for the response's content-length.  `headSize` is the
`st_size` the stub reports for the object (`none` when `head_object` returns
`None`, in which case `filestat.st_size` raises `AttributeError`). -/
def finalizePut (headSize : Option Nat) (payload : List Nat) (a : CRAttrs) : PutOutcome :=
  match headSize with
  | none =>
    ([PutCall.continueCreation payload a.start a.endOff true, PutCall.headObject],
     Except.error PyErr.attributeError)
  | some n =>
    ([PutCall.continueCreation payload a.start a.endOff true, PutCall.headObject],
     Except.ok ⟨200, [("content-length", HVal.nat n)], []⟩)

/-- `_handle_put(gs_stub, filename, param_dict, headers, payload)`.  Accessing
`content_range.start` when `_ContentRange` never set it (falsy header value)
raises `AttributeError`. -/
def handle_put (headSize : Option Nat) (headers : List (String × String))
    (payload : List Nat) : PutOutcome :=
  match mkContentRange headers with
  | Except.error e => ([], Except.error e)
  | Except.ok cr =>
    if pyTruthyStr cr.value then
      match cr.attrs with
      | none => ([], Except.error PyErr.attributeError)
      | some a =>
        if a.finished = false then
          ([PutCall.continueCreation payload a.start a.endOff false],
           Except.ok ⟨308, [], []⟩)
        else finalizePut headSize payload a
    else if payload = [] then
      match cr.attrs with
      | none => ([], Except.error PyErr.attributeError)
      | some a => finalizePut headSize payload a
    else ([], Except.error (PyErr.valueError "Missing header content-range but has payload"))

/-- The five handlers `dispatch` can route to. -/
inductive Handler where
  | post | put | get | head | delete
deriving DecidableEq, Repr

/-- The method routing of `dispatch` (`_preprocess` returns the method
unchanged): one handler per recognized method, `ValueError` otherwise. -/
def dispatchMethod (m : String) : Except PyErr Handler :=
  if m = "POST" then Except.ok Handler.post
  else if m = "PUT" then Except.ok Handler.put
  else if m = "GET" then Except.ok Handler.get
  else if m = "HEAD" then Except.ok Handler.head
  else if m = "DELETE" then Except.ok Handler.delete
  else Except.error (PyErr.valueError ("Unrecognized request method " ++ m))

/-- A stored object: its byte content plus the metadata the handlers read. -/
structure GcsObject where
  content : List Nat
  contentType : String
  etag : String
deriving DecidableEq, Repr

/-- The stub's storage, kept sorted by filename (the stub storage iterates its
objects in ascending filename order). -/
abbrev Store := List (String × GcsObject)

/-- Modelled from the spec: `head_object` is implemented in
`cloudstorage_stub.py`, which is not under src/.  Per the spec it is a plain
single-shot metadata lookup returning the object's stat when it exists. -/
def head_object (store : Store) (filename : String) : Option GcsObject :=
  (store.find? (fun kv => kv.1 == filename)).map (fun kv => kv.2)

/-- `_handle_head`: 404 with empty headers when absent, else 200 with the
stat headers (`last-modified` and user metadata, which no claim touches and
whose encoding lives outside src/, are omitted). -/
def handle_head (store : Store) (filename : String) : FakeResult :=
  match head_object store filename with
  | none => ⟨404, [], []⟩
  | some obj =>
      ⟨200,
       [("content-length", HVal.nat obj.content.length),
        ("content-type", HVal.str obj.contentType),
        ("etag", HVal.str obj.etag)], []⟩

/-- Modelled from the spec: `get_object` is implemented in
`cloudstorage_stub.py`, which is not under src/.  Spec: the GET body is the
requested byte span, `start` through `end` inclusive. -/
def get_object (store : Store) (filename : String) (start endOff : Int) : List Nat :=
  match head_object store filename with
  | none => []
  | some obj => (obj.content.drop start.toNat).take (endOff - start + 1).toNat

/-- Python-2 whitespace stripping at both ends, as `long(str)` does. -/
def stripWs (l : List Char) : List Char :=
  ((l.dropWhile Char.isWhitespace).reverse.dropWhile Char.isWhitespace).reverse

/-- Python `long(string)`: optional surrounding whitespace, optional sign,
then decimal digits. -/
def pyLong (l : List Char) : Option Int :=
  match stripWs l with
  | '+' :: ds =>
    if ds ≠ [] ∧ (∀ c ∈ ds, c.isDigit = true) then some ((digitsVal ds : Int)) else none
  | '-' :: ds =>
    if ds ≠ [] ∧ (∀ c ∈ ds, c.isDigit = true) then some (-(digitsVal ds : Int)) else none
  | ds =>
    if ds ≠ [] ∧ (∀ c ∈ ds, c.isDigit = true) then some ((digitsVal ds : Int)) else none

/-- `value.rsplit('=', 1)[-1]`: everything after the last `=`, the whole
string when there is none. -/
def afterLastEq (l : List Char) : List Char :=
  (l.reverse.takeWhile (fun c => c != '=')).reverse

/-- Python `str.split('-')`. -/
def splitDash : List Char → List (List Char)
  | [] => [[]]
  | c :: cs =>
    if c = '-' then [] :: splitDash cs
    else
      match splitDash cs with
      | [] => [[c]]
      | h :: t => (c :: h) :: t

/-- `_Range.__init__` on a truthy header value:
`start, end = self.value.rsplit('=', 1)[-1].split('-'); long(start), long(end)`.
Unpacking anything but two parts, or a bad `long` literal, raises `ValueError`. -/
def rangeOfValue (s : String) : Except PyErr (Int × Int) :=
  match splitDash (afterLastEq s.data) with
  | [a, b] =>
    match pyLong a, pyLong b with
    | some x, some y => Except.ok (x, y)
    | _, _ => Except.error (PyErr.valueError "invalid literal for long()")
  | _ => Except.error (PyErr.valueError "too many values to unpack")

/-- `_Range(headers).value`: `(0, None)` when the header is absent or falsy. -/
def mkRange (headers : List (String × String)) : Except PyErr (Int × Option Int) :=
  match headerLookup "Range" headers with
  | none => Except.ok (0, none)
  | some s =>
    if s = "" then Except.ok (0, none)
    else
      match rangeOfValue s with
      | Except.ok (x, y) => Except.ok (x, some y)
      | Except.error e => Except.error e

/-- Python 2 `min(a, end)` where `end` may be `None`: `None` compares smaller
than every int, so the result is `None` whenever `end` is. -/
def pyMinOpt (a : Int) : Option Int → Option Int
  | none => none
  | some b => some (min a b)

/-- The content-range string `_handle_get` emits:
`'bytes: %d-%d/%d' % (start, end, st_size)` (note the colon). -/
def fmtContentRange (start endOff : Int) (size : Nat) : String :=
  "bytes: " ++ toString start ++ "-" ++ toString endOff ++ "/" ++ toString size

/-- Response-header dictionary lookup (`result.headers['content-length']`). -/
def hdrGet (n : String) (hs : List (String × HVal)) : Option HVal :=
  (hs.find? (fun kv => kv.1 == n)).map (fun kv => kv.2)

/-- The GET-object branch of `_handle_get` (the bucket branch, taken when
`filename.rfind('/') == 0`, is `handle_get_bucket` below).  Formatting `%d`
with `None` (the unresolved unbounded end) raises `TypeError`; reading
`headers['content-length']` from a 404's empty headers raises `KeyError`. -/
def handle_get (store : Store) (filename : String)
    (headers : List (String × String)) : Except PyErr FakeResult :=
  match mkRange headers with
  | Except.error e => Except.error e
  | Except.ok (start, endOpt) =>
    match hdrGet "content-length" (handle_head store filename).headers with
    | none => Except.error PyErr.keyError
    | some (HVal.str _) => Except.error PyErr.typeError
    | some (HVal.nat stSize) =>
      match pyMinOpt ((stSize : Int) - 1) endOpt with
      | none => Except.error PyErr.typeError
      | some e2 =>
        Except.ok ⟨(handle_head store filename).status,
          (handle_head store filename).headers ++
            [("content-range", HVal.str (fmtContentRange start e2 stSize))],
          get_object store filename start e2⟩

/-- Lexicographic order on character lists, as Python compares the marker
string with object keys. -/
def lexLt : List Char → List Char → Bool
  | _, [] => false
  | [], _ :: _ => true
  | a :: as, b :: bs => if a < b then true else if b < a then false else lexLt as bs

/-- `stat.filename[len(bucketpath) + 1:]`: the key of an object inside the
bucket. -/
def keyOf (bucketpath filename : String) : String :=
  String.mk (filename.data.drop (bucketpath.data.length + 1))

/-- Modelled from the spec: `CloudStorageStub.get_bucket` is implemented in
`cloudstorage_stub.py`, which is not under src/.  Per the spec (listing pages,
marker and the `listbucket` docstring) it returns the stats
`(filename, st_size, etag)` of the bucket's objects whose key has the given
key-prefix and is strictly after the marker, in ascending filename order,
capped at `max_keys` entries.  The store is kept sorted by filename. -/
def get_bucket (store : Store) (bucketpath pfx marker : String) (maxKeys : Nat) :
    List (String × Nat × String) :=
  ((store.filter (fun kv =>
      (bucketpath.data ++ ['/']).isPrefixOf kv.1.data
      && pfx.data.isPrefixOf (kv.1.data.drop (bucketpath.data.length + 1))
      && lexLt marker.data (kv.1.data.drop (bucketpath.data.length + 1)))).map
    (fun kv => (kv.1, kv.2.content.length, kv.2.etag))).take maxKeys

/-- The query parameters `_handle_get_bucket` reads with `_get_param`, after
decoding, with their source defaults (`''`, `''`, `_MAX_GET_BUCKET_RESULT`). -/
structure BucketParams where
  pfx : String := ""
  marker : String := ""
  maxKeys : Nat := 1000
deriving DecidableEq, Repr

/-- The `ListBucketResult` tree `_handle_get_bucket` builds: a `Contents`
element per stat carrying `(Key, Size, ETag)` (plus a `LastModified` no claim
reads), and an optional trailing `NextMarker`.  No `MaxKeys` element is ever
emitted. -/
structure ListPage where
  contents : List (String × Nat × String)
  nextMarker : Option String
deriving DecidableEq, Repr

/-- `_MAX_GET_BUCKET_RESULT = 1000`. -/
def MAX_GET_BUCKET_RESULT : Nat := 1000

/-- `_handle_get_bucket`: `last_object_name` starts as `''` and is overwritten
by each stat's key; `NextMarker` is emitted exactly when
`len(stats) == _MAX_GET_BUCKET_RESULT`. -/
def handle_get_bucket (store : Store) (bucketpath : String) (params : BucketParams) :
    ListPage :=
  ⟨(get_bucket store bucketpath params.pfx params.marker params.maxKeys).map
      (fun st => (keyOf bucketpath st.1, st.2.1, st.2.2)),
   if (get_bucket store bucketpath params.pfx params.marker params.maxKeys).length
        = MAX_GET_BUCKET_RESULT then
     some ((get_bucket store bucketpath params.pfx params.marker params.maxKeys).foldl
       (fun _ st => keyOf bucketpath st.1) "")
   else none⟩

/-- One page as `_Bucket.__iter__` sees it after XML parsing: the `Contents`
entries' `(Key, Size, ETag)` texts, the int value of a `MaxKeys` element when
one is present, and the `NextMarker` text when one is present. -/
structure ClientPage where
  contents : List (String × Nat × String)
  maxKeys : Option Nat
  nextMarker : Option String
deriving DecidableEq, Repr

/-- The `listbucket` options dict threaded through `_Bucket`: keys are present
only when set. -/
structure ListOptions where
  marker : Option String := none
  pfx : Option String := none
  maxKeys : Option Nat := none
deriving DecidableEq, Repr

/-- `common.CSFileStat` as populated from a listing page: filename, st_size,
etag. -/
structure CSFileStat where
  filename : String
  st_size : Nat
  etag : String
deriving DecidableEq, Repr

/-- The stats `_Bucket.__iter__` yields for one page:
`CSFileStat(self._path + '/' + Key, long(Size), ETag)` in page order. -/
def pageStats (path : String) (p : ClientPage) : List CSFileStat :=
  p.contents.map (fun c => ⟨String.mk (path.data ++ '/' :: c.1.data), c.2.1, c.2.2⟩)

/-- `_Bucket.__iter__`: yield a whole page, add its size to `total`, then
refetch with `options['marker'] = next_marker.text` exactly when
`(max_keys is None or total < int(max_keys.text)) and (next_marker is not None)`.
`fetch` is the composition of `get_bucket_async` with the service; the stub
transport always answers 200, so `check_status` never raises here.  `fuel`
bounds the number of page fetches. -/
def iterPages (fetch : ListOptions → ClientPage) (path : String) :
    Nat → ListOptions → Nat → List CSFileStat
  | 0, _, _ => []
  | fuel + 1, opts, total =>
    if ((fetch opts).maxKeys.elim true
          (fun mk => decide (total + (pageStats path (fetch opts)).length < mk))
        && (fetch opts).nextMarker.isSome) then
      pageStats path (fetch opts) ++
        iterPages fetch path fuel { opts with marker := (fetch opts).nextMarker }
          (total + (pageStats path (fetch opts)).length)
    else pageStats path (fetch opts)

/-- The service as `_Bucket` reaches it through the stub dispatcher: the
options dict becomes the query parameters (same defaults as `_get_param`), and
the stub's page never carries a `MaxKeys` element. -/
def stubFetch (store : Store) (path : String) (opts : ListOptions) : ClientPage :=
  ⟨(handle_get_bucket store path
      ⟨opts.pfx.getD "", opts.marker.getD "", opts.maxKeys.getD MAX_GET_BUCKET_RESULT⟩).contents,
   none,
   (handle_get_bucket store path
      ⟨opts.pfx.getD "", opts.marker.getD "", opts.maxKeys.getD MAX_GET_BUCKET_RESULT⟩).nextMarker⟩

/-- Four-digit zero-padded decimal key, so that numeric and lexicographic
order agree on the example stores. -/
def pad4 (i : Nat) : List Char :=
  List.replicate (4 - (Nat.toDigits 10 i).length) '0' ++ Nat.toDigits 10 i

/-- A bucket `/b` holding `n` empty objects with keys `0000`, `0001`, …,
sorted by filename. -/
def bigStore (n : Nat) : Store :=
  (List.range n).map (fun i => (String.mk ('/' :: 'b' :: '/' :: pad4 i), ⟨[], "t", "e"⟩))

/-! Supporting lemmas about the digit-span scanner. -/

theorem takeDigits_append_rest (l : List Char) :
    (takeDigits l).1 ++ (takeDigits l).2 = l := by
  induction l with
  | nil => rfl
  | cons c cs ih =>
    by_cases h : c.isDigit = true
    · simp [takeDigits, h, ih]
    · simp [takeDigits, h]

theorem takeDigits_all_digits (l : List Char) :
    ∀ c ∈ (takeDigits l).1, c.isDigit = true := by
  induction l with
  | nil => intro c hc; simp [takeDigits] at hc
  | cons c cs ih =>
    intro d hd
    by_cases h : c.isDigit = true
    · simp [takeDigits, h] at hd
      rcases hd with hd | hd
      · rw [hd]; exact h
      · exact ih d hd
    · simp [takeDigits, h] at hd

theorem parseCRTail_sound {l : List Char} {v : Nat × Nat × Option Nat}
    (h : parseCRTail l = some v) :
    ∃ d1 d2 t nl : List Char,
      (nl = [] ∨ nl = ['\n']) ∧
      d1 ≠ [] ∧ (∀ c ∈ d1, c.isDigit = true) ∧
      d2 ≠ [] ∧ (∀ c ∈ d2, c.isDigit = true) ∧
      (t = ['*'] ∨ (t ≠ [] ∧ ∀ c ∈ t, c.isDigit = true)) ∧
      l = d1 ++ '-' :: d2 ++ '/' :: (t ++ nl) := by
  unfold parseCRTail at h
  split at h
  case h_1 r2 heq1 =>
    split at h
    case h_1 r4 heq2 =>
      split at h
      · exact absurd h (by simp)
      case isFalse hne =>
        push_neg at hne
        have hl1 : l = (takeDigits l).1 ++ '-' :: r2 := by
          rw [← heq1, takeDigits_append_rest]
        have hl2 : r2 = (takeDigits r2).1 ++ '/' :: r4 := by
          rw [← heq2, takeDigits_append_rest]
        rw [hl2] at hl1
        split at h
        case isTrue hstar =>
          rcases hstar with hstar | hstar
          · rw [hstar] at hl1
            exact ⟨(takeDigits l).1, (takeDigits r2).1, ['*'], [], Or.inl rfl,
              hne.1, takeDigits_all_digits l, hne.2, takeDigits_all_digits r2,
              Or.inl rfl, by simpa using hl1⟩
          · rw [hstar] at hl1
            exact ⟨(takeDigits l).1, (takeDigits r2).1, ['*'], ['\n'], Or.inr rfl,
              hne.1, takeDigits_all_digits l, hne.2, takeDigits_all_digits r2,
              Or.inl rfl, by simpa using hl1⟩
        case isFalse hstar =>
          split at h
          · exact absurd h (by simp)
          case isFalse hne3 =>
            push_neg at hne3
            have hnl : (takeDigits r4).2 = [] ∨ (takeDigits r4).2 = ['\n'] := by
              have h6 := hne3.2
              simp only [dollarEnd, Bool.or_eq_true, beq_iff_eq] at h6
              exact h6
            have hl3 : r4 = (takeDigits r4).1 ++ (takeDigits r4).2 :=
              (takeDigits_append_rest r4).symm
            rw [hl3] at hl1
            exact ⟨(takeDigits l).1, (takeDigits r2).1, (takeDigits r4).1,
              (takeDigits r4).2, hnl,
              hne.1, takeDigits_all_digits l, hne.2, takeDigits_all_digits r2,
              Or.inr ⟨hne3.1, takeDigits_all_digits r4⟩, by simpa using hl1⟩
    case h_2 => exact absurd h (by simp)
  case h_2 => exact absurd h (by simp)

theorem parseCR_sound {s : String} (h : (parseContentRange s).isSome = true) :
    CRGrammarNL s := by
  unfold parseContentRange parseCR at h
  split at h
  case h_1 rest heq =>
    obtain ⟨v, hv⟩ := Option.isSome_iff_exists.mp h
    obtain ⟨d1, d2, t, nl, hnl, h1, h2, h3, h4, h5, h6⟩ := parseCRTail_sound hv
    rcases hnl with hnl | hnl
    · left
      refine ⟨d1, d2, t, h1, h2, h3, h4, h5, ?_⟩
      rw [heq, h6, hnl, List.append_nil]
    · right
      refine ⟨String.mk ('b' :: 'y' :: 't' :: 'e' :: 's' :: ' ' ::
          (d1 ++ '-' :: d2 ++ '/' :: t)),
        ⟨d1, d2, t, h1, h2, h3, h4, h5, rfl⟩, ?_⟩
      rw [heq, h6, hnl]
      simp
  case h_2 => simp at h

theorem mem_of_getLast?_eq {α : Type} {l : List α} {a : α}
    (h : l.getLast? = some a) : a ∈ l := by
  cases l with
  | nil => exact Option.noConfusion h
  | cons x xs =>
    rw [List.getLast?_eq_getLast_of_ne_nil (List.cons_ne_nil x xs)] at h
    rw [← Option.some.inj h]
    exact List.getLast_mem (List.cons_ne_nil x xs)

theorem crgrammar_no_trailing_newline {s : String} (h : CRGrammar s) :
    s.data.getLast? ≠ some '\n' := by
  obtain ⟨d1, d2, t, h1, h2, h3, h4, h5, h6⟩ := h
  intro hc
  rw [h6] at hc
  have hsh : ('b' :: 'y' :: 't' :: 'e' :: 's' :: ' ' :: (d1 ++ '-' :: d2 ++ '/' :: t))
      = ('b' :: 'y' :: 't' :: 'e' :: 's' :: ' ' :: (d1 ++ '-' :: d2)) ++ '/' :: t := by
    simp
  rw [hsh, List.getLast?_append_of_ne_nil _ (List.cons_ne_nil '/' t)] at hc
  rcases h5 with h5 | ⟨h5a, h5b⟩
  · rw [h5] at hc
    exact absurd hc (by decide)
  · obtain ⟨t0, ts, ht⟩ := List.exists_cons_of_ne_nil h5a
    rw [ht, List.getLast?_cons_cons] at hc
    have hm : '\n' ∈ t := ht ▸ mem_of_getLast?_eq hc
    exact absurd (h5b '\n' hm) (by decide)

/-- C8 counterexample: `_ContentRange.RE_PATTERN`'s `$` anchor also matches
just before a trailing newline, so the value `bytes 0-99/100` followed by a
newline is accepted without error — it parses to `(0, 99, 100)` and
`_ContentRange` succeeds — although it does not match the claimed grammar
`bytes <digits>-<digits>/<digits-or-star>`.  This falsifies the claim's
universal clause that every value not matching that grammar fails with
`ProtocolFormatError`. -/
theorem c8_counterexample_trailing_newline :
    parseContentRange "bytes 0-99/100\n" = some (0, 99, some 100)
    ∧ mkContentRange [("content-range", "bytes 0-99/100\n")] =
        Except.ok ⟨some "bytes 0-99/100\n", some ⟨0, 99, true⟩⟩
    ∧ ¬ CRGrammar "bytes 0-99/100\n" :=
  ⟨by decide, by decide,
   fun h => crgrammar_no_trailing_newline h (by decide)⟩

/-- C8 amended: the content-range parser yields `start 0, end 99, total
unknown` on `bytes 0-99/*` and `start 0, end 99, total 100` on
`bytes 0-99/100`; and every header value not matching the grammar
`bytes <digits>-<digits>/<digits-or-star>` — up to one trailing newline,
which Python re's `$` tolerates — fails with the spec's
`ProtocolFormatError` (a `ValueError` in the source).  The universal part is
proved as the equivalent contrapositive: every value the parser accepts
matches that extended grammar. -/
theorem c8_amended_content_range_codec :
    parseContentRange "bytes 0-99/*" = some (0, 99, none)
    ∧ parseContentRange "bytes 0-99/100" = some (0, 99, some 100)
    ∧ (∀ s : String, (parseContentRange s).isSome = true → CRGrammarNL s)
    ∧ (∀ s : String, s ≠ "" → parseContentRange s = none →
        mkContentRange [("content-range", s)] =
          Except.error (PyErr.valueError ("Invalid content-range header " ++ s))) := by
  refine ⟨by decide, by decide, fun s h => parseCR_sound h, fun s hs hp => ?_⟩
  have h0 : mkContentRange [("content-range", s)] =
      if s = "" then Except.ok ⟨some s, none⟩
      else
        match parseContentRange s with
        | none => Except.error (PyErr.valueError ("Invalid content-range header " ++ s))
        | some (a, b, t) => Except.ok ⟨some s, some ⟨a, b, t.isSome⟩⟩ := rfl
  rw [h0, if_neg hs, hp]

/-- Witness for C8's amended theorem: the parser's success on
`bytes 0-99/100` certifies the extended grammar, and a concrete malformed
value is rejected with the error. -/
theorem c8_amended_content_range_codec_witness :
    CRGrammarNL "bytes 0-99/100"
    ∧ mkContentRange [("content-range", "bytes zz")] =
        Except.error (PyErr.valueError ("Invalid content-range header " ++ "bytes zz")) :=
  ⟨c8_amended_content_range_codec.2.2.1 "bytes 0-99/100" (by decide),
   c8_amended_content_range_codec.2.2.2 "bytes zz" (by decide) (by decide)⟩

theorem parseContentRange_ne_empty {s : String} {v : Nat × Nat × Option Nat}
    (h : parseContentRange s = some v) : s ≠ "" := by
  intro he
  rw [he] at h
  have hn : parseContentRange "" = none := by decide
  rw [hn] at h
  exact Option.noConfusion h

theorem mkContentRange_of_parse {headers : List (String × String)} {s : String}
    {a b : Nat} {t : Option Nat}
    (hl : headerLookup "Content-Range" headers = some s)
    (hp : parseContentRange s = some (a, b, t)) :
    mkContentRange headers = Except.ok ⟨some s, some ⟨a, b, t.isSome⟩⟩ := by
  unfold mkContentRange
  rw [hl]
  show (if s = "" then Except.ok (CRObj.mk (some s) none)
        else
          match parseContentRange s with
          | none => Except.error (PyErr.valueError ("Invalid content-range header " ++ s))
          | some (x, y, z) =>
            Except.ok (CRObj.mk (some s) (some (CRAttrs.mk x y z.isSome)))) =
      Except.ok (CRObj.mk (some s) (some (CRAttrs.mk a b t.isSome)))
  rw [if_neg (parseContentRange_ne_empty hp), hp]

/-- C1: a PUT whose content-range parses as `bytes a-b/*` (total unknown)
stores the chunk non-final (`put_continue_creation` without the finalization
flag) and answers 308; one whose content-range parses as `bytes a-b/n` commits
the upload as final (`put_continue_creation` with the finalization flag) and
answers 200.  The two success statuses are tied to the two distinct actions
and are never interchanged. -/
theorem c1_put_chunk_vs_finalize :
    ∀ (headers : List (String × String)) (payload : List Nat) (n : Nat)
      (s : String) (a b : Nat),
      headerLookup "Content-Range" headers = some s →
      ((parseContentRange s = some (a, b, none) →
          handle_put (some n) headers payload =
            ([PutCall.continueCreation payload a b false],
             Except.ok ⟨308, [], []⟩))
       ∧ (∀ tot : Nat, parseContentRange s = some (a, b, some tot) →
           handle_put (some n) headers payload =
             ([PutCall.continueCreation payload a b true, PutCall.headObject],
              Except.ok ⟨200, [("content-length", HVal.nat n)], []⟩))) := by
  intro headers payload n s a b hl
  constructor
  · intro hp
    have hcr := mkContentRange_of_parse hl hp
    have hs := parseContentRange_ne_empty hp
    unfold handle_put
    rw [hcr]
    simp [pyTruthyStr, hs]
  · intro tot hp
    have hcr := mkContentRange_of_parse hl hp
    have hs := parseContentRange_ne_empty hp
    unfold handle_put
    rw [hcr]
    simp [pyTruthyStr, hs, finalizePut]

/-- Witness for C1 at `bytes 0-5/*` (chunk, 308) and `bytes 0-5/6`
(finalize, 200). -/
theorem c1_put_chunk_vs_finalize_witness :
    handle_put (some 6) [("content-range", "bytes 0-5/*")] [1, 2, 3] =
      ([PutCall.continueCreation [1, 2, 3] 0 5 false], Except.ok ⟨308, [], []⟩)
    ∧ handle_put (some 6) [("content-range", "bytes 0-5/6")] [1, 2, 3] =
      ([PutCall.continueCreation [1, 2, 3] 0 5 true, PutCall.headObject],
       Except.ok ⟨200, [("content-length", HVal.nat 6)], []⟩) :=
  ⟨(c1_put_chunk_vs_finalize _ [1, 2, 3] 6 "bytes 0-5/*" 0 5 (by decide)).1 (by decide),
   (c1_put_chunk_vs_finalize _ [1, 2, 3] 6 "bytes 0-5/6" 0 5 (by decide)).2 6 (by decide)⟩

/-- C2: the claim says a PUT with empty payload and no content-range header is
accepted as a finalize with status 200.  The code instead raises
`AttributeError`: `_ContentRange.__init__` leaves `start`/`end` unset when the
header is absent, and `_handle_put`'s finalize branch reads
`content_range.start` before calling the stub.  No call reaches the storage
stub and no 200 response is produced, whatever `head_object` would report. -/
theorem c2_empty_finalize_attribute_error :
    handle_put (some 5) [("x-goog-meta-a", "b")] [] =
      ([], Except.error PyErr.attributeError) := by decide

/-- C3: a PUT with a non-empty payload and no content-range header raises
`ValueError` (the spec's `ProtocolFormatError`) and issues no storage-stub
call, so nothing is committed. -/
theorem c3_payload_without_content_range :
    ∀ (headers : List (String × String)) (payload : List Nat) (headSize : Option Nat),
      headerLookup "Content-Range" headers = none → payload ≠ [] →
      handle_put headSize headers payload =
        ([], Except.error (PyErr.valueError "Missing header content-range but has payload")) := by
  intro headers payload headSize hl hp
  unfold handle_put mkContentRange
  rw [hl]
  simp [pyTruthyStr, hp]

/-- Witness for C3: a one-byte payload with no headers at all. -/
theorem c3_payload_without_content_range_witness :
    handle_put none [] [7] =
      ([], Except.error (PyErr.valueError "Missing header content-range but has payload")) :=
  c3_payload_without_content_range [] [7] none (by decide) (by decide)

/-- C9: `dispatch` routes each of the five recognized methods to exactly its
handler and raises `ValueError` on any other method string, invoking no
handler. -/
theorem c9_dispatch_routing :
    dispatchMethod "POST" = Except.ok Handler.post
    ∧ dispatchMethod "PUT" = Except.ok Handler.put
    ∧ dispatchMethod "GET" = Except.ok Handler.get
    ∧ dispatchMethod "HEAD" = Except.ok Handler.head
    ∧ dispatchMethod "DELETE" = Except.ok Handler.delete
    ∧ ∀ m : String, m ∉ (["POST", "PUT", "GET", "HEAD", "DELETE"] : List String) →
        dispatchMethod m =
          Except.error (PyErr.valueError ("Unrecognized request method " ++ m)) := by
  refine ⟨by decide, by decide, by decide, by decide, by decide, ?_⟩
  intro m hm
  simp only [List.mem_cons, List.not_mem_nil, or_false, not_or] at hm
  obtain ⟨h1, h2, h3, h4, h5⟩ := hm
  unfold dispatchMethod
  rw [if_neg h1, if_neg h2, if_neg h3, if_neg h4, if_neg h5]

/-- Witness for C9: `PATCH` is rejected with `ValueError`. -/
theorem c9_dispatch_routing_witness :
    dispatchMethod "PATCH" =
      Except.error (PyErr.valueError ("Unrecognized request method " ++ "PATCH")) :=
  c9_dispatch_routing.2.2.2.2.2 "PATCH" (by decide)

/-! Supporting lemmas for the `_Range` header parser. -/

theorem digit_not_ws {c : Char} (h : c.isDigit = true) : c.isWhitespace = false := by
  unfold Char.isWhitespace
  unfold Char.isDigit at h
  simp only [Bool.and_eq_true, decide_eq_true_eq] at h
  simp only [Bool.or_eq_false_iff, decide_eq_false_iff_not]
  refine ⟨⟨⟨?_, ?_⟩, ?_⟩, ?_⟩ <;> intro he <;> subst he <;> revert h <;> decide

theorem digit_ne_char {c : Char} (h : c.isDigit = true) {d : Char}
    (hd : d.isDigit = false) : c ≠ d := by
  intro he; rw [he] at h; rw [h] at hd; exact Bool.noConfusion hd

theorem dropWhile_ws_eq_self {l : List Char}
    (h : ∀ c ∈ l, c.isWhitespace = false) : l.dropWhile Char.isWhitespace = l := by
  cases l with
  | nil => rfl
  | cons c cs =>
    rw [List.dropWhile_cons]
    rw [h c (List.mem_cons_self c cs)]
    simp

theorem stripWs_of_digits {l : List Char} (h : ∀ c ∈ l, c.isDigit = true) :
    stripWs l = l := by
  unfold stripWs
  rw [dropWhile_ws_eq_self (fun c hc => digit_not_ws (h c hc))]
  rw [dropWhile_ws_eq_self (fun c hc => digit_not_ws (h c (List.mem_reverse.mp hc)))]
  exact List.reverse_reverse l

theorem pyLong_digits {l : List Char} (hne : l ≠ [])
    (h : ∀ c ∈ l, c.isDigit = true) : pyLong l = some ((digitsVal l : Int)) := by
  unfold pyLong
  rw [stripWs_of_digits h]
  cases l with
  | nil => exact absurd rfl hne
  | cons c cs =>
    have hc : c.isDigit = true := h c (List.mem_cons_self c cs)
    have h1 : c ≠ '+' := digit_ne_char hc (by decide)
    have h2 : c ≠ '-' := digit_ne_char hc (by decide)
    split
    case h_1 ds heq =>
      exact absurd (List.head_eq_of_cons_eq heq) h1
    case h_2 ds heq =>
      exact absurd (List.head_eq_of_cons_eq heq) h2
    case h_3 =>
      rw [if_pos ⟨hne, h⟩]

theorem takeWhile_all_append {p : Char → Bool} {xs : List Char}
    (h : ∀ c ∈ xs, p c = true) (y : Char) (ys : List Char) (hy : p y = false) :
    (xs ++ y :: ys).takeWhile p = xs := by
  induction xs with
  | nil => simp [List.takeWhile_cons, hy]
  | cons a as ih =>
    rw [List.cons_append, List.takeWhile_cons]
    rw [h a (List.mem_cons_self a as)]
    simp only [if_true]
    rw [ih (fun c hc => h c (List.mem_cons_of_mem a hc))]

theorem afterLastEq_spec {p t : List Char} (h : '=' ∉ t) :
    afterLastEq (p ++ '=' :: t) = t := by
  unfold afterLastEq
  rw [List.reverse_append, List.reverse_cons, List.append_assoc, List.singleton_append]
  rw [takeWhile_all_append ?hall '=' p.reverse (by decide)]
  · exact List.reverse_reverse t
  case hall =>
    intro c hc
    have : c ≠ '=' := fun he => h (by rw [← he]; exact List.mem_reverse.mp hc)
    simp [this]

theorem splitDash_no_dash {l : List Char} (h : '-' ∉ l) : splitDash l = [l] := by
  induction l with
  | nil => rfl
  | cons c cs ih =>
    have hc : ¬(c = '-') := fun he => h (by rw [he]; exact List.mem_cons_self _ _)
    have ih2 := ih (fun hm => h (List.mem_cons_of_mem c hm))
    simp [splitDash, hc, ih2]

theorem splitDash_split {s e : List Char} (h : '-' ∉ s) :
    splitDash (s ++ '-' :: e) = s :: splitDash e := by
  induction s with
  | nil => simp [splitDash]
  | cons c cs ih =>
    have hc : ¬(c = '-') := fun he => h (by rw [he]; exact List.mem_cons_self _ _)
    have ih2 := ih (fun hm => h (List.mem_cons_of_mem c hm))
    simp [splitDash, hc, ih2]

theorem mkRange_of_value {headers : List (String × String)} {v : String}
    (hl : headerLookup "Range" headers = some v) (hne : v ≠ "")
    {x y : Int} (hr : rangeOfValue v = Except.ok (x, y)) :
    mkRange headers = Except.ok (x, some y) := by
  unfold mkRange
  rw [hl]
  show (if v = "" then Except.ok ((0 : Int), (none : Option Int))
        else
          match rangeOfValue v with
          | Except.ok (a, b) => Except.ok (a, some b)
          | Except.error e => Except.error e) = Except.ok (x, some y)
  rw [if_neg hne, hr]

theorem rangeOfValue_general (p s e : List Char) (hs : s ≠ [])
    (hds : ∀ c ∈ s, c.isDigit = true) (he : e ≠ [])
    (hde : ∀ c ∈ e, c.isDigit = true) :
    rangeOfValue (String.mk (p ++ '=' :: (s ++ '-' :: e))) =
      Except.ok ((digitsVal s : Int), (digitsVal e : Int)) := by
  unfold rangeOfValue
  have hdata : (String.mk (p ++ '=' :: (s ++ '-' :: e))).data
      = p ++ '=' :: (s ++ '-' :: e) := rfl
  rw [hdata]
  rw [afterLastEq_spec ?hnoeq]
  case hnoeq =>
    intro hm
    rcases List.mem_append.mp hm with hm | hm
    · exact absurd (hds _ hm) (by decide)
    · rcases List.mem_cons.mp hm with hm | hm
      · exact absurd hm (by decide)
      · exact absurd (hde _ hm) (by decide)
  rw [splitDash_split ?hnd, splitDash_no_dash ?hnd2]
  case hnd =>
    intro hm; exact absurd (hds _ hm) (by decide)
  case hnd2 =>
    intro hm; exact absurd (hde _ hm) (by decide)
  show (match pyLong s, pyLong e with
        | some x, some y => Except.ok (x, y)
        | _, _ => Except.error (PyErr.valueError "invalid literal for long()"))
      = Except.ok ((digitsVal s : Int), (digitsVal e : Int))
  rw [pyLong_digits hs hds, pyLong_digits he hde]

/-- C10: `_Range` never validates the unit name: for any prefix `p` and digit
strings `s`, `e`, the header value `p=s-e` (for example `chars=1-3`) parses
exactly like `bytes=s-e`, yielding the pair `(s, e)`. -/
theorem c10_range_unit_ignored :
    ∀ (p s e : List Char), s ≠ [] → (∀ c ∈ s, c.isDigit = true) →
      e ≠ [] → (∀ c ∈ e, c.isDigit = true) →
      mkRange [("range", String.mk (p ++ '=' :: (s ++ '-' :: e)))] =
        Except.ok ((digitsVal s : Int), some ((digitsVal e : Int)))
      ∧ mkRange [("range", String.mk (p ++ '=' :: (s ++ '-' :: e)))] =
        mkRange [("range", String.mk ('b' :: 'y' :: 't' :: 'e' :: 's' :: '=' :: (s ++ '-' :: e)))] := by
  intro p s e hs hds he hde
  have key : ∀ q : List Char,
      mkRange [("range", String.mk (q ++ '=' :: (s ++ '-' :: e)))] =
        Except.ok ((digitsVal s : Int), some ((digitsVal e : Int))) := by
    intro q
    have hne : String.mk (q ++ '=' :: (s ++ '-' :: e)) ≠ "" := by
      intro hcon
      have h2 := congrArg String.data hcon
      simp at h2
    have hl : headerLookup "Range"
        [("range", String.mk (q ++ '=' :: (s ++ '-' :: e)))]
        = some (String.mk (q ++ '=' :: (s ++ '-' :: e))) := rfl
    exact mkRange_of_value hl hne (rangeOfValue_general q s e hs hds he hde)
  have hb : String.mk ('b' :: 'y' :: 't' :: 'e' :: 's' :: '=' :: (s ++ '-' :: e))
      = String.mk (['b', 'y', 't', 'e', 's'] ++ '=' :: (s ++ '-' :: e)) := rfl
  exact ⟨key p, by rw [key p, hb, key ['b', 'y', 't', 'e', 's']]⟩

/-- Witness for C10: `chars=1-3` parses to `(1, 3)`, identically to
`bytes=1-3`. -/
theorem c10_range_unit_ignored_witness :
    mkRange [("range", "chars=1-3")] = Except.ok ((1 : Int), some (3 : Int))
    ∧ mkRange [("range", "chars=1-3")] = mkRange [("range", "bytes=1-3")] := by
  have h := c10_range_unit_ignored ['c', 'h', 'a', 'r', 's'] ['1'] ['3']
    (by decide) (by decide) (by decide) (by decide)
  exact ⟨h.1, h.2⟩

/-! Supporting lemmas and theorems for the GET and listing claims. -/

theorem list_foldl_const {α β : Type} (l : List α) (f : α → β) (b : β) :
    l.foldl (fun _ a => f a) b = (l.getLast?.map f).getD b := by
  induction l generalizing b with
  | nil => rfl
  | cons a as ih =>
    rw [List.foldl_cons, ih]
    cases as with
    | nil => rfl
    | cons a2 as2 =>
      rw [List.getLast?_cons_cons]
      obtain ⟨x, hx⟩ := Option.isSome_iff_exists.mp
        (List.getLast?_isSome.mpr (List.cons_ne_nil a2 as2))
      rw [hx]
      rfl

/-- A store with one three-byte object, for the C4 failing input. -/
def storeC4 : Store := [("/b/o", ⟨[1, 2, 3], "text/plain", "etag1"⟩)]

/-- C4: the claim says a GET with no range header succeeds with 200 and the
full object body.  On the code, `_Range` yields `(0, None)` for an absent
header, Python 2's `min(st_size - 1, None)` evaluates to `None`, and
`'%d' % None` in the content-range format raises `TypeError`: the handler
crashes on every existing object whenever the range header is absent. -/
theorem c4_get_without_range_raises :
    handle_get storeC4 "/b/o" [] = Except.error PyErr.typeError := by decide

/-- A store with one 100-byte object, for the C5 failing input. -/
def storeC5 : Store := [("/b/o", ⟨List.replicate 100 7, "binary/octet-stream", "e100"⟩)]

/-- C5: the claim says the content-range string emitted by the GET handler is
accepted by `_ContentRange`.  The handler formats `'bytes: %d-%d/%d'` — with a
colon after `bytes` — which `_ContentRange.RE_PATTERN` (documented as
`bytes 1-3/5`) rejects, so the round trip fails on every in-range GET. -/
theorem c5_round_trip_fails :
    handle_get storeC5 "/b/o" [("range", "bytes=0-9")] =
      Except.ok ⟨200,
        [("content-length", HVal.nat 100),
         ("content-type", HVal.str "binary/octet-stream"),
         ("etag", HVal.str "e100"),
         ("content-range", HVal.str "bytes: 0-9/100")],
        List.replicate 10 7⟩
    ∧ parseContentRange "bytes: 0-9/100" = none := ⟨by decide, by decide⟩

set_option maxRecDepth 100000 in
/-- C6 counterexample: a bucket holding exactly 1000 objects.  The page
returns all 1000 entries, the container is exhausted (nothing lies beyond the
last key `0999`), yet `NextMarker` is present — `_handle_get_bucket` emits it
whenever `len(stats) == 1000`, with no exhaustion check.  This falsifies the
claimed equivalence "marker present iff cap hit with container not yet
exhausted". -/
theorem c6_counterexample_marker_on_exhausted :
    (handle_get_bucket (bigStore 1000) "/b" {}).nextMarker = some "0999"
    ∧ get_bucket (bigStore 1000) "/b" "" "0999" 1000 = [] := ⟨by decide, by decide⟩

/-- C6 amended: `NextMarker` is present iff the page holds exactly 1000
entries (`_MAX_GET_BUCKET_RESULT`), whether or not the container is exhausted;
when present its value is the key of the last entry of the page. -/
theorem c6_amended_next_marker_iff_full_page :
    ∀ (store : Store) (path : String) (params : BucketParams),
      (handle_get_bucket store path params).nextMarker =
        if (handle_get_bucket store path params).contents.length = MAX_GET_BUCKET_RESULT
        then (handle_get_bucket store path params).contents.getLast?.map (fun c => c.1)
        else none := by
  intro store path params
  have hc : (handle_get_bucket store path params).contents =
      (get_bucket store path params.pfx params.marker params.maxKeys).map
        (fun st => (keyOf path st.1, st.2.1, st.2.2)) := rfl
  have hm : (handle_get_bucket store path params).nextMarker =
      if (get_bucket store path params.pfx params.marker params.maxKeys).length
        = MAX_GET_BUCKET_RESULT then
        some ((get_bucket store path params.pfx params.marker params.maxKeys).foldl
          (fun _ st => keyOf path st.1) "")
      else none := rfl
  rw [hc, hm, List.length_map]
  by_cases h : (get_bucket store path params.pfx params.marker params.maxKeys).length
      = MAX_GET_BUCKET_RESULT
  · rw [if_pos h, if_pos h, list_foldl_const, List.getLast?_map]
    have hne : get_bucket store path params.pfx params.marker params.maxKeys ≠ [] := by
      intro he; rw [he] at h; exact absurd h (by decide)
    obtain ⟨x, hx⟩ := Option.isSome_iff_exists.mp (List.getLast?_isSome.mpr hne)
    rw [hx]
    rfl
  · rw [if_neg h, if_neg h]

set_option maxRecDepth 100000 in
/-- C7 counterexample: `listbucket` with `max_keys = 1000` over a bucket of
1001 objects, served by the repository's own stub.  The first page holds 1000
entries and a `NextMarker`; the stub never emits a `MaxKeys` element, so the
iterator — which compares its running count against the response's `MaxKeys`
element, not against the caller's `max_keys` — fetches a second page and
yields 1001 entries, though the claim says it stops at the caller's 1000. -/
theorem c7_counterexample_exceeds_max_keys :
    (iterPages (stubFetch (bigStore 1001) "/b") "/b" 3 ⟨none, none, some 1000⟩ 0).length
      = 1001 := by decide

/-- C7 amended: the iterator yields each page's entries whole and in page
order, stops fetching when the page carries no next-marker, or when the page's
`MaxKeys` element is present with value at most the running count of yielded
entries; otherwise it sets the cursor's marker to the page's next-marker and
fetches the following page before yielding further.  (The caller's `max_keys`
itself is never consulted; it reaches the service only as a request
parameter.) -/
theorem c7_amended_iter_stop_conditions :
    ∀ (fetch : ListOptions → ClientPage) (path : String)
      (opts : ListOptions) (fuel total : Nat),
      ((fetch opts).nextMarker = none →
        iterPages fetch path (fuel + 1) opts total = pageStats path (fetch opts))
      ∧ (∀ mk, (fetch opts).maxKeys = some mk →
          mk ≤ total + (pageStats path (fetch opts)).length →
          iterPages fetch path (fuel + 1) opts total = pageStats path (fetch opts))
      ∧ (∀ m, (fetch opts).nextMarker = some m →
          ((fetch opts).maxKeys = none ∨
            ∃ mk, (fetch opts).maxKeys = some mk
              ∧ total + (pageStats path (fetch opts)).length < mk) →
          iterPages fetch path (fuel + 1) opts total =
            pageStats path (fetch opts) ++
              iterPages fetch path fuel { opts with marker := some m }
                (total + (pageStats path (fetch opts)).length)) := by
  intro fetch path opts fuel total
  have step : ∀ (o : ListOptions) (t : Nat),
      iterPages fetch path (fuel + 1) o t =
        if ((fetch o).maxKeys.elim true
              (fun mk => decide (t + (pageStats path (fetch o)).length < mk))
            && (fetch o).nextMarker.isSome) then
          pageStats path (fetch o) ++
            iterPages fetch path fuel { o with marker := (fetch o).nextMarker }
              (t + (pageStats path (fetch o)).length)
        else pageStats path (fetch o) := fun o t => rfl
  refine ⟨fun hnm => ?_, fun mk hmk hle => ?_, fun m hm hcond => ?_⟩
  · rw [step, hnm]
    simp
  · rw [step, hmk]
    simp [Nat.not_lt.mpr hle]
  · rw [step, hm]
    rcases hcond with hcond | ⟨mk, hmk, hlt⟩
    · rw [hcond]
      simp
    · rw [hmk]
      simp [hlt]

/-- Witness for C7's amended theorem: a single page with no next-marker makes
the iterator yield exactly that page. -/
theorem c7_amended_iter_stop_conditions_witness :
    iterPages (fun _ => ⟨[("a", 1, "e")], none, none⟩) "/b" 1 ⟨none, none, none⟩ 0 =
      pageStats "/b" ⟨[("a", 1, "e")], none, none⟩ :=
  (c7_amended_iter_stop_conditions (fun _ => ⟨[("a", 1, "e")], none, none⟩) "/b"
    ⟨none, none, none⟩ 0 0).1 rfl

end GcsClient
